import Mathlib

/-!
Verification development for the interactive navigation engine of `tui.py`
(terminal operator console).  We shallowly embed the three core pieces:

* the list selector `select_option` (lines 111-172),
* the scrollable text viewer `display_text` (lines 297-366),
* the menu control flow of `main` (lines 418-651),

as executable Lean definitions, and prove/refute the specified properties.
Strings are modelled as `List Char`; Python's case-insensitive substring
test `q.lower() in s.lower()` is modelled with `Char.toLower` (all inputs of
interest are ASCII, where the two agree).  Python list indexing, which may
raise `IndexError`, is modelled with the optional index `l[i]?`, with `none`
denoting the exception.
-/

/-- Strings of the embedded program: Python `str` as a list of characters. -/
abbrev Str : Type := List Char

/-- Coerce a Lean string literal into the embedding's string type. -/
def strL (s : String) : Str := s.data

/-- Python `s.lower()` (ASCII fragment). -/
def lowerStr (s : Str) : Str := s.map Char.toLower

/-- Test whether `hay` begins with `needle`. -/
def startsWithStr : Str → Str → Bool
  | [], _ => true
  | _ :: _, [] => false
  | a :: as, b :: bs => a == b && startsWithStr as bs

/-- Python `needle in hay` (substring containment). -/
def containsStr (hay needle : Str) : Bool :=
  match hay with
  | [] => needle.isEmpty
  | c :: rest => startsWithStr needle (c :: rest) || containsStr rest needle

/-- Python `needle.lower() in hay.lower()`: case-insensitive substring test,
as used both by the selector filter (line 165) and the viewer search
(line 357). -/
def containsCI (hay needle : Str) : Bool :=
  containsStr (lowerStr hay) (lowerStr needle)

/-- The `"Go Back"` sentinel string (line 121). -/
def goBackS : Str := strL "Go Back"

/-- The `"Exit"` sentinel string (line 123). -/
def exitS : Str := strL "Exit"

/-- Configuration of one `select_option` invocation: the keyword arguments
`get_label`, `include_back`, `include_exit`, `search_enabled`, `skip_items`
(line 111).  Item type specialised to strings, as in every search-enabled
call site of `main`. -/
structure SelCfg where
  getLabel : Str → Str
  includeBack : Bool
  includeExit : Bool
  searchEnabled : Bool
  skipItems : List Str

/-- Mutable state of the `select_option` loop: `original_options`,
`filtered_options`, `search_query`, `current_row`, `scroll_pos`
(lines 120-128). -/
structure SelState where
  original : List Str
  filtered : List Str
  query : Str
  currentRow : Nat
  scrollPos : Nat
deriving DecidableEq

/-- Lines 120-124: copy `options`, prepend `"Go Back"` when `include_back`
and not already present, then append `"Exit"` when `include_exit` and not
already present. -/
def mkOriginal (includeBack includeExit : Bool) (options : List Str) : List Str :=
  let o1 := if includeBack ∧ goBackS ∉ options then goBackS :: options else options
  if includeExit ∧ exitS ∉ o1 then o1 ++ [exitS] else o1

/-- Lines 125-128: initial loop state (`filtered_options = original_options`,
empty query, row and scroll at 0). -/
def initSel (cfg : SelCfg) (options : List Str) : SelState :=
  let orig := mkOriginal cfg.includeBack cfg.includeExit options
  ⟨orig, orig, [], 0, 0⟩

/-- Line 165 / 170: `[opt for opt in original_options if
search_query.lower() in get_label(opt).lower()]`. -/
def applyFilter (cfg : SelCfg) (original : List Str) (q : Str) : List Str :=
  original.filter (fun o => containsCI (cfg.getLabel o) q)

/-- Lines 153-154: the `while filtered_options[current_row] in skip_items and
current_row > 0: current_row -= 1` loop, entered at row `r`.  `none` models
an `IndexError` from the subscript. -/
def skipDecLoop (filt skip : List Str) : Nat → Option Nat
  | 0 =>
    match filt[0]? with
    | none => none
    | some _ => some 0
  | r + 1 =>
    match filt[r + 1]? with
    | none => none
    | some v => if v ∈ skip then skipDecLoop filt skip r else some (r + 1)

/-- Fuelled body of the `while ... current_row < len(filtered_options) - 1:
current_row += 1` loop of lines 157-158. -/
def skipIncGo (filt skip : List Str) : Nat → Nat → Option Nat
  | 0, _ => none
  | fuel + 1, r =>
    match filt[r]? with
    | none => none
    | some v =>
      if v ∈ skip ∧ r + 1 < filt.length then skipIncGo filt skip fuel (r + 1)
      else some r

/-- Lines 157-158, entered at row `r`; the fuel `filt.length - r + 1` is
enough for the loop, whose counter strictly increases below `filt.length`. -/
def skipIncLoop (filt skip : List Str) (r : Nat) : Option Nat :=
  skipIncGo filt skip (filt.length - r + 1) r

/-- One key event consumed by `stdscr.getch()` in the selector loop
(lines 150-172): arrow keys, Enter, a printable character, Backspace, or
any other key (which matches no branch and leaves the loop state alone). -/
inductive SKey where
  | up
  | down
  | enter
  | printable (c : Char)
  | backspace
  | other
deriving DecidableEq

/-- Result of handling one key: keep looping with a new state, `return` a
value to the caller, or raise an uncaught `IndexError`. -/
inductive StepRes where
  | cont (st : SelState)
  | ret (v : Str)
  | crash
deriving DecidableEq

/-- Lines 151-172: the key dispatch of the selector loop.  Mirrors the
`if/elif` chain of the source: the Up/Down guards (`current_row > 0`,
`current_row < len(filtered_options) - 1`), the skip-stepping loops, the
Enter subscript `filtered_options[current_row]`, and the query editing
(printable range 32..126, Backspace) which refilters and resets row and
scroll to 0.  A key matching no branch continues the loop unchanged. -/
def selKey (cfg : SelCfg) (st : SelState) : SKey → StepRes
  | .up =>
    if 0 < st.currentRow then
      match skipDecLoop st.filtered cfg.skipItems (st.currentRow - 1) with
      | none => .crash
      | some r => .cont { st with currentRow := r }
    else .cont st
  | .down =>
    if st.currentRow + 1 < st.filtered.length then
      match skipIncLoop st.filtered cfg.skipItems (st.currentRow + 1) with
      | none => .crash
      | some r => .cont { st with currentRow := r }
    else .cont st
  | .enter =>
    match st.filtered[st.currentRow]? with
    | none => .crash
    | some v => if v ∈ cfg.skipItems then .cont st else .ret v
  | .printable c =>
    if cfg.searchEnabled ∧ 32 ≤ c.toNat ∧ c.toNat ≤ 126 then
      let q := st.query ++ [c]
      .cont { st with query := q, filtered := applyFilter cfg st.original q,
                      currentRow := 0, scrollPos := 0 }
    else .cont st
  | .backspace =>
    if cfg.searchEnabled then
      let q := st.query.dropLast
      .cont { st with query := q, filtered := applyFilter cfg st.original q,
                      currentRow := 0, scrollPos := 0 }
    else .cont st
  | .other => .cont st

/-- Lines 137-140: the render-time clamp of `scroll_pos` to keep
`current_row` inside the visible window of `mv` rows. -/
def adjustScroll (mv row scroll : Nat) : Nat :=
  if scroll + mv ≤ row then row + 1 - mv
  else if row < scroll then row
  else scroll

/-- The state as it stands after the render phase of one loop iteration
(only `scroll_pos` is touched there). -/
def preRender (mv : Nat) (st : SelState) : SelState :=
  { st with scrollPos := adjustScroll mv st.currentRow st.scrollPos }

/-- One full iteration of the selector loop: render-time scroll clamp, then
key dispatch. -/
def selStep (cfg : SelCfg) (mv : Nat) (st : SelState) (k : SKey) : StepRes :=
  selKey cfg (preRender mv st) k

/-- Line 143: the label actually drawn for an entry — the two sentinel
strings are displayed literally, everything else goes through `get_label`. -/
def renderLabel (getLabel : Str → Str) (opt : Str) : Str :=
  if opt = goBackS ∨ opt = exitS then opt else getLabel opt

/-- Lines 129-130 + 132-149: run the selector loop against a per-frame
terminal-row function `rows`, recording how many item rows each frame
draws.  Faithful to the source, `max_visible_items = max_rows - 4` is
computed once, before the loop (`rows 0` is the size at entry); each frame
clamps the scroll, slices `filtered_options[scroll_pos : scroll_pos + mv]`,
then consumes one key. -/
def selFramesGo (cfg : SelCfg) (mv : Nat) : SelState → List SKey → List Nat
  | _, [] => []
  | st, k :: ks =>
    let st1 := preRender mv st
    let cnt := ((st1.filtered.drop st1.scrollPos).take mv).length
    cnt ::
      (match selKey cfg st1 k with
       | .cont st2 => selFramesGo cfg mv st2 ks
       | _ => [])

/-- The selector loop from its entry point: sentinels inserted, state
initialised, window height fixed from the terminal size at entry. -/
def selFrames (cfg : SelCfg) (rows : Nat → Nat) (options : List Str)
    (keys : List SKey) : List Nat :=
  selFramesGo cfg (rows 0 - 4) (initSel cfg options) keys

/-! ### The text viewer `display_text` (lines 297-366)

State is the single integer `current_line`; `display_height = max_rows - 2`
is the page height `h`.  All Python arithmetic here is nonnegative-safe, so
`Nat` with truncated subtraction coincides with the source: the guard
`current_line < len(lines) - display_height` and the clamp
`max(0, len(lines) - display_height)` both become `lines.length - h`. -/

/-- Fuelled body of the `for idx in range(current_line, len(lines))` search
loop of lines 356-360. -/
def findFromGo (lines : List Str) (q : Str) : Nat → Nat → Option Nat
  | 0, _ => none
  | fuel + 1, idx =>
    match lines[idx]? with
    | none => none
    | some l => if containsCI l q then some idx else findFromGo lines q fuel (idx + 1)

/-- Lines 356-360: index of the first line `≥ start` containing `q`
case-insensitively, if any. -/
def findFrom (lines : List Str) (q : Str) (start : Nat) : Option Nat :=
  findFromGo lines q (lines.length - start) start

/-- Lines 355-364: the whole search branch — the new `current_line` together
with the `found` flag (`false` triggers the transient "Not found" notice and
leaves `current_line` unchanged). -/
def vsearch (lines : List Str) (q : Str) (cur : Nat) : Nat × Bool :=
  match findFrom lines q cur with
  | some idx => (idx, true)
  | none => (cur, false)

/-- One key event of the viewer loop (line 340): the five scrolling keys,
the `/` search (with the query string the user then types), or any other
key. -/
inductive VKey where
  | up
  | down
  | npage
  | ppage
  | kend
  | search (q : Str)
  | other
deriving DecidableEq

/-- Lines 341-366: the viewer's key dispatch.  `some cur` keeps the loop
running with the new top line, `none` is the `else: break` dismissing the
viewer.  Mirrors the source exactly: Up is guarded by `current_line > 0`
and Down by `current_line < len(lines) - display_height`, so at those
boundaries the keys fall through the whole `elif` chain into the dismissing
`else` branch. -/
def viewerStep (lines : List Str) (h : Nat) (cur : Nat) : VKey → Option Nat
  | .up => if 0 < cur then some (cur - 1) else none
  | .down => if cur < lines.length - h then some (cur + 1) else none
  | .npage => some (min (cur + h) (lines.length - h))
  | .ppage => some (cur - h)
  | .kend => some (lines.length - h)
  | .search q => some (vsearch lines q cur).1
  | .other => none

/-- Run the viewer loop over a list of keys: `some c` when the loop is still
running with top line `c` after consuming them all, `none` when some key
dismissed the viewer. -/
def viewerRun (lines : List Str) (h : Nat) : Nat → List VKey → Option Nat
  | cur, [] => some cur
  | cur, k :: ks =>
    match viewerStep lines h cur k with
    | some c => viewerRun lines h c ks
    | none => none

/-- The keys the spec calls scrolling keys for the viewer. -/
def isScrollKey (k : VKey) : Prop :=
  k = .up ∨ k = .down ∨ k = .npage ∨ k = .ppage ∨ k = .kend

instance (k : VKey) : Decidable (isScrollKey k) := by
  unfold isScrollKey; infer_instance

/-- Line 338: the help line the viewer itself renders each frame. -/
def viewerHelpLine : Str :=
  strL "Up/Down: scroll  PageUp/PageDown: page  End: jump to end  '/': search  Any other key: exit"

/-! ### The navigation session `main` (lines 418-651)

The menu hierarchy of `main` is a nest of `while True:` loops, one per
level, each level blocking in a `select_option` call.  We model the control
flow as a step relation: a state names the loop the program is about to
prompt in, and a step consumes the value the selector invocation returned
(the user's selection).  External data (which namespaces a repository
contains) is abstracted as the function `nsOf`. -/

/-- Position in `main`'s loop nest:
* `mainMenu` — top of the `while True` of line 433 ("select environment");
* `jitPrompt` — the "select jump host" prompt of line 439;
* `envTypeLoop env` — top of the loop of line 451 ("select environment type");
* `nsLoop env ty` — top of the loop of line 476 ("select a kubernetes namespace");
* `optPrompt env ty ns` — the "select an option" prompt of line 481;
* `actionLoop env ty ns` — top of the loop of line 486 ("kubernetes actions");
* `done` — `main` has returned. -/
inductive NavState where
  | mainMenu
  | jitPrompt
  | envTypeLoop (env : Str)
  | nsLoop (env ty : Str)
  | optPrompt (env ty ns : Str)
  | actionLoop (env ty ns : Str)
  | done
deriving DecidableEq

/-- One selector round of `main`: from the prompt named by the state,
consume the selection `sel` and move to the next prompt, following the
source's `break`/`continue`/`return` statements:
* line 435-436: "Exit" at the main menu returns from `main`;
* line 437-448: "jumphost jit" enters the jump-host prompt, whose every
  outcome (`Go Back` or a displayed JIT result) continues the main loop;
* line 455-456: "Go Back" at the env-type prompt breaks to the main menu;
  lines 470-475: an env type with no namespaces found also breaks back;
* line 478-479: "Go Back" at the namespace prompt breaks the namespace
  loop, so the env-type loop re-prompts;
* line 482-483: "Go Back" at the option prompt likewise breaks the
  namespace loop (re-prompting the env type, not the namespace);
  "kubernetes" enters the action loop; any other option falls through the
  `if` of line 484 to the `return` of line 651;
* line 488-489: "Go Back" at the action prompt breaks the action loop and
  falls to the `return` of line 651, ending the session; any other action
  runs and the action loop continues. -/
def navStep (nsOf : Str → Str → List Str) : NavState → Str → NavState
  | .mainMenu, sel =>
    if sel = exitS then .done
    else if sel = strL "jumphost jit" then .jitPrompt
    else .envTypeLoop sel
  | .jitPrompt, _ => .mainMenu
  | .envTypeLoop env, sel =>
    if sel = goBackS then .mainMenu
    else if (nsOf env sel).isEmpty then .mainMenu
    else .nsLoop env sel
  | .nsLoop env ty, sel =>
    if sel = goBackS then .envTypeLoop env
    else .optPrompt env ty sel
  | .optPrompt env ty ns, sel =>
    if sel = goBackS then .envTypeLoop env
    else if sel = strL "kubernetes" then .actionLoop env ty ns
    else .done
  | .actionLoop env ty ns, sel =>
    if sel = goBackS then .done
    else .actionLoop env ty ns
  | .done, _ => .done

/-! ### Concrete fixtures used by counterexamples and witnesses -/

/-- A search-enabled selector over plain strings (identity labels), as in
the namespace/pod selectors of `main`. -/
def cfgA : SelCfg := ⟨fun s => s, false, false, true, []⟩

/-- A bare selector: no sentinels, no search. -/
def cfgB : SelCfg := ⟨fun s => s, false, false, false, []⟩

/-- A selector with the "Go Back" sentinel and search enabled. -/
def cfgC : SelCfg := ⟨fun s => s, true, false, true, []⟩

/-- A selector with both the "Go Back" and the "Exit" sentinel and search
enabled. -/
def cfgD : SelCfg := ⟨fun s => s, true, true, true, []⟩

/-- A selector with a divider marked as a skip item, as in the main menu of
`main` (line 434). -/
def cfgSkip : SelCfg := ⟨fun s => s, false, false, false, [strL "---"]⟩

/-- The skip-list scenario of the spec: `["---", "x", "y"]`. -/
def opts3 : List Str := [strL "---", strL "x", strL "y"]

/-- Selector state over `opts3` with the cursor on the last row. -/
def st3 : SelState := ⟨opts3, opts3, [], 2, 0⟩

/-- The state `select_option(..., ["alpha"], search_enabled=True)` reaches
after the user types `z`: the query matches nothing. -/
def stEmptyA : SelState := ⟨[strL "alpha"], [], strL "z", 0, 0⟩

/-- Item list for the filter witness. -/
def optsABG : List Str := [strL "alpha", strL "beta", strL "gamma"]

/-- A 50-line text, as in the paging scenario of the spec. -/
def lines50v : List Str := List.replicate 50 (strL "x")

/-- A 12-line text whose match for `zzz` sits on the very last line. -/
def linesCx : List Str := List.replicate 11 (strL "a") ++ [strL "zzz"]

/-- A 2-line text for the search witness. -/
def lines2v : List Str := [strL "a", strL "b"]

/-- A namespace lookup that always finds one namespace. -/
def nsOfEx : Str → Str → List Str := fun _ _ => [strL "ns"]

/-- A terminal that has 10 rows when the selector starts and is resized to
44 rows afterwards. -/
def rowsEx : Nat → Nat := fun n => if n = 0 then 10 else 44

/-- A terminal that has 10 rows when the selector starts and is resized to
99 rows afterwards. -/
def rowsEx2 : Nat → Nat := fun n => if n = 0 then 10 else 99

/-- Fifty items for the resize scenario. -/
def opts50 : List Str := List.replicate 50 (strL "i")

/-! ### Helper lemmas about the skip-stepping loops and the forward search -/

theorem skipDecLoop_spec (filt skip : List Str) :
    ∀ r : Nat, r < filt.length →
      (∃ j l, j ≤ r ∧ filt[j]? = some l ∧ l ∉ skip) →
      ∃ r' l', skipDecLoop filt skip r = some r' ∧ r' ≤ r ∧
        filt[r']? = some l' ∧ l' ∉ skip := by
  intro r
  induction r with
  | zero =>
    intro hr hex
    obtain ⟨j, l, hj, hget, hns⟩ := hex
    have hj0 : j = 0 := Nat.le_zero.mp hj
    subst hj0
    exact ⟨0, l, by simp [skipDecLoop, hget], Nat.le_refl 0, hget, hns⟩
  | succ r ih =>
    intro hr hex
    obtain ⟨j, l, hj, hget, hns⟩ := hex
    cases hvv : filt[r + 1]? with
    | none =>
      exact absurd (List.getElem?_eq_none_iff.mp hvv) (by omega)
    | some v =>
      by_cases hvs : v ∈ skip
      · have hjr : j ≤ r := by
          rcases Nat.lt_or_ge j (r + 1) with h | h
          · omega
          · exfalso
            have : j = r + 1 := by omega
            subst this
            rw [hget] at hvv
            exact hns (Option.some.inj hvv ▸ hvs)
        obtain ⟨r', l', heq, hle, hg', hns'⟩ :=
          ih (by omega) ⟨j, l, hjr, hget, hns⟩
        exact ⟨r', l', by simp [skipDecLoop, hvv, hvs, heq], by omega, hg', hns'⟩
      · exact ⟨r + 1, v, by simp [skipDecLoop, hvv, hvs], Nat.le_refl _, hvv, hvs⟩

theorem skipIncGo_spec (filt skip : List Str) :
    ∀ fuel r, filt.length ≤ r + fuel →
      (∃ j l, r ≤ j ∧ filt[j]? = some l ∧ l ∉ skip) →
      ∃ r' l', skipIncGo filt skip fuel r = some r' ∧ r ≤ r' ∧
        filt[r']? = some l' ∧ l' ∉ skip := by
  intro fuel
  induction fuel with
  | zero =>
    intro r hfu hex
    obtain ⟨j, l, hj, hget, hns⟩ := hex
    have hjlen : j < filt.length := by
      rcases List.getElem?_eq_some_iff.mp hget with ⟨h, _⟩
      exact h
    omega
  | succ fuel ih =>
    intro r hfu hex
    obtain ⟨j, l, hj, hget, hns⟩ := hex
    have hjlen : j < filt.length := by
      rcases List.getElem?_eq_some_iff.mp hget with ⟨h, _⟩
      exact h
    have hrlen : r < filt.length := by omega
    cases hvv : filt[r]? with
    | none => exact absurd (List.getElem?_eq_none_iff.mp hvv) (by omega)
    | some v =>
      by_cases hvs : v ∈ skip ∧ r + 1 < filt.length
      · have hjr : r + 1 ≤ j := by
          rcases Nat.lt_or_ge j (r + 1) with h | h
          · exfalso
            have : j = r := by omega
            subst this
            rw [hget] at hvv
            exact hns (Option.some.inj hvv ▸ hvs.1)
          · exact h
        obtain ⟨r', l', heq, hle, hg', hns'⟩ :=
          ih (r + 1) (by omega) ⟨j, l, hjr, hget, hns⟩
        exact ⟨r', l', by simp [skipIncGo, hvv, hvs, heq], by omega, hg', hns'⟩
      · by_cases hsk : v ∈ skip
        · exfalso
          have hlen : filt.length ≤ r + 1 := by
            rcases Nat.lt_or_ge (r + 1) filt.length with h | h
            · exact absurd ⟨hsk, h⟩ hvs
            · exact h
          have : j = r := by omega
          subst this
          rw [hget] at hvv
          exact hns (Option.some.inj hvv ▸ hsk)
        · exact ⟨r, v, by simp [skipIncGo, hvv, hvs], Nat.le_refl _, hvv, hsk⟩

theorem skipIncLoop_spec (filt skip : List Str) (r : Nat)
    (hex : ∃ j l, r ≤ j ∧ filt[j]? = some l ∧ l ∉ skip) :
    ∃ r' l', skipIncLoop filt skip r = some r' ∧ r ≤ r' ∧
      filt[r']? = some l' ∧ l' ∉ skip :=
  skipIncGo_spec filt skip (filt.length - r + 1) r (by omega) hex

theorem findFromGo_some (lines : List Str) (q : Str) :
    ∀ fuel start i, findFromGo lines q fuel start = some i →
      start ≤ i ∧ (∃ l, lines[i]? = some l ∧ containsCI l q = true) ∧
      ∀ j l, start ≤ j → j < i → lines[j]? = some l → containsCI l q = false := by
  intro fuel
  induction fuel with
  | zero => intro start i h; simp [findFromGo] at h
  | succ fuel ih =>
    intro start i h
    rw [findFromGo] at h
    cases hg : lines[start]? with
    | none => rw [hg] at h; simp at h
    | some l =>
      rw [hg] at h
      simp only [] at h
      by_cases hc : containsCI l q = true
      · rw [if_pos hc] at h
        have hi : start = i := Option.some.inj h
        subst hi
        exact ⟨Nat.le_refl _, ⟨l, hg, hc⟩, fun j lj h1 h2 _ => absurd h2 (by omega)⟩
      · rw [if_neg hc] at h
        obtain ⟨h1, h2, h3⟩ := ih (start + 1) i h
        refine ⟨by omega, h2, ?_⟩
        intro j lj hj1 hj2 hgj
        rcases Nat.eq_or_lt_of_le hj1 with heq | hlt
        · subst heq
          rw [hg] at hgj
          have : lj = l := (Option.some.inj hgj).symm
          subst this
          exact Bool.not_eq_true _ ▸ hc
        · exact h3 j lj (by omega) hj2 hgj

theorem findFromGo_none (lines : List Str) (q : Str) :
    ∀ fuel start, findFromGo lines q fuel start = none →
      lines.length ≤ start + fuel →
      ∀ j l, start ≤ j → lines[j]? = some l → containsCI l q = false := by
  intro fuel
  induction fuel with
  | zero =>
    intro start _ hlen j l hj hget
    have : j < lines.length := by
      rcases List.getElem?_eq_some_iff.mp hget with ⟨h, _⟩
      exact h
    omega
  | succ fuel ih =>
    intro start h hlen j l hj hget
    rw [findFromGo] at h
    cases hg : lines[start]? with
    | none =>
      have h1 : lines.length ≤ start := List.getElem?_eq_none_iff.mp hg
      have h2 : j < lines.length := by
        rcases List.getElem?_eq_some_iff.mp hget with ⟨hh, _⟩
        exact hh
      omega
    | some l0 =>
      rw [hg] at h
      simp only [] at h
      by_cases hc : containsCI l0 q = true
      · rw [if_pos hc] at h; exact absurd h (by simp)
      · rw [if_neg hc] at h
        rcases Nat.eq_or_lt_of_le hj with heq | hlt
        · subst heq
          rw [hg] at hget
          have hll : l0 = l := Option.some.inj hget
          subst hll
          exact Bool.not_eq_true _ ▸ hc
        · exact ih (start + 1) h (by omega) j l (by omega) hget

theorem findFrom_some (lines : List Str) (q : Str) (start i : Nat)
    (h : findFrom lines q start = some i) :
    start ≤ i ∧ (∃ l, lines[i]? = some l ∧ containsCI l q = true) ∧
    ∀ j l, start ≤ j → j < i → lines[j]? = some l → containsCI l q = false :=
  findFromGo_some lines q (lines.length - start) start i h

theorem findFrom_none (lines : List Str) (q : Str) (start : Nat)
    (h : findFrom lines q start = none) :
    ∀ j l, start ≤ j → lines[j]? = some l → containsCI l q = false :=
  findFromGo_none lines q (lines.length - start) start h (by omega)

/-! ### Viewer theorems -/

theorem viewerStep_scrollkey_bound (lines : List Str) (h cur c : Nat) (k : VKey)
    (hk : isScrollKey k) (hcur : cur ≤ lines.length - h)
    (hstep : viewerStep lines h cur k = some c) : c ≤ lines.length - h := by
  rcases hk with rfl | rfl | rfl | rfl | rfl <;>
    rw [viewerStep] at hstep <;>
    first
      | (split at hstep
         · have hv := Option.some.inj hstep; omega
         · exact absurd hstep (by simp))
      | (have hv := Option.some.inj hstep; omega)

/-- Claim C4 (amended): along any sequence of the five scrolling keys
(Up, Down, Page-Up, Page-Down, End) the viewer's top line stays within
`[0, lines.length - h]` (`h` the page height, the bound being 0 when the
text is shorter than a page); the `/`-search key, excluded here, can move
the top line beyond that bound, up to the index of the last line. -/
theorem viewer_topline_clamped_scrollkeys (lines : List Str) (h : Nat) :
    ∀ ks cur c, (∀ k ∈ ks, isScrollKey k) → cur ≤ lines.length - h →
      viewerRun lines h cur ks = some c → c ≤ lines.length - h := by
  intro ks
  induction ks with
  | nil =>
    intro cur c _ hcur hrun
    rw [viewerRun] at hrun
    have hv := Option.some.inj hrun
    omega
  | cons k ks ih =>
    intro cur c hks hcur hrun
    rw [viewerRun] at hrun
    cases hstep : viewerStep lines h cur k with
    | none => rw [hstep] at hrun; exact absurd hrun (by simp)
    | some c1 =>
      rw [hstep] at hrun
      simp only [] at hrun
      have hb := viewerStep_scrollkey_bound lines h cur c1 k (hks k (by simp)) hcur hstep
      exact ih c1 c (fun k2 hk2 => hks k2 (by simp [hk2])) hb hrun

/-- Witness for C4's amended claim: the 50-line, page-height-10 scenario —
five Page-Down presses leave the top line at 40, within the bound. -/
theorem viewer_topline_clamped_scrollkeys_witness :
    viewerRun lines50v 10 0 (List.replicate 5 VKey.npage) = some 40 ∧
    40 ≤ lines50v.length - 10 :=
  ⟨by decide,
   viewer_topline_clamped_scrollkeys lines50v 10 (List.replicate 5 VKey.npage) 0 40
     (by decide) (by decide) (by decide)⟩

/-- Counterexample to C4 as stated: on a 12-line text with page height 10,
a `/`-search whose first match is the last line sets the top line to 11,
beyond `max 0 (12 - 10) = 2`. -/
theorem viewer_search_exceeds_topline_bound :
    viewerRun linesCx 10 0 [VKey.search (strL "zzz")] = some 11 ∧
    ¬(11 ≤ linesCx.length - 10) := by decide

/-- Claim C5: the `/`-search of the viewer moves the top line to the first
line at index `≥ cur` containing the query case-insensitively; when no such
line exists it keeps the top line and reports not-found (the `found` flag of
`vsearch` is `false`); the landing index is never below `cur` (no
wrap-around). -/
theorem viewer_search_first_match_or_stay (lines : List Str) (h cur : Nat) (q : Str) :
    ∃ c, viewerStep lines h cur (.search q) = some c ∧ cur ≤ c ∧
      ((vsearch lines q cur).2 = true →
        (∃ l, lines[c]? = some l ∧ containsCI l q = true) ∧
        ∀ j l, cur ≤ j → j < c → lines[j]? = some l → containsCI l q = false) ∧
      ((vsearch lines q cur).2 = false →
        c = cur ∧ ∀ j l, cur ≤ j → lines[j]? = some l → containsCI l q = false) := by
  cases hf : findFrom lines q cur with
  | some i =>
    obtain ⟨h1, h2, h3⟩ := findFrom_some lines q cur i hf
    refine ⟨i, ?_, h1, fun _ => ⟨h2, h3⟩, ?_⟩
    · rw [viewerStep]
      simp [vsearch, hf]
    · intro hfalse
      rw [vsearch, hf] at hfalse
      simp at hfalse
  | none =>
    refine ⟨cur, ?_, Nat.le_refl _, ?_, fun _ => ⟨rfl, findFrom_none lines q cur hf⟩⟩
    · rw [viewerStep]
      simp [vsearch, hf]
    · intro htrue
      rw [vsearch, hf] at htrue
      simp at htrue

/-- Witness for C5: searching `b` from the top of the 2-line text
`["a", "b"]` lands on a line that really contains `b`. -/
theorem viewer_search_first_match_or_stay_witness :
    ∃ l, lines2v[(vsearch lines2v (strL "b") 0).1]? = some l ∧
      containsCI l (strL "b") = true := by
  obtain ⟨c, hstep, hle, hfound, hnf⟩ :=
    viewer_search_first_match_or_stay lines2v 10 0 (strL "b")
  have h2 : (vsearch lines2v (strL "b") 0).2 = true := by decide
  obtain ⟨⟨l, hget, hc⟩, _⟩ := hfound h2
  have hv1 : viewerStep lines2v 10 0 (.search (strL "b")) =
      some ((vsearch lines2v (strL "b") 0).1) := rfl
  rw [hv1] at hstep
  have hc2 : (vsearch lines2v (strL "b") 0).1 = c := Option.some.inj hstep
  exact ⟨l, hc2 ▸ hget, hc⟩

/-- Claim C6 is contradicted by the code: with the 50-line text and page
height 10, pressing Up at top line 0 (or Down at the maximal top line 40)
falls through the whole `elif` chain of `display_text` into `else: break`,
dismissing the viewer (`none`), while Page-Down in the same state scrolls
and keeps it running. -/
theorem viewer_up_at_top_dismisses :
    viewerStep lines50v 10 0 .up = none ∧
    viewerStep lines50v 10 40 .down = none ∧
    viewerStep lines50v 10 0 .npage = some 10 ∧
    viewerStep lines50v 10 0 .ppage = some 0 ∧
    viewerStep lines50v 10 0 .other = none := by decide

/-! ### Selector theorems -/

/-- Claim C1: every query edit — appending a printable character or
backspacing — refilters the full option list (the one with the sentinels
inserted, see the last conjunct) down to exactly the entries whose label
contains the new query case-insensitively, in original order (the filtered
list is a sublist of the original), and resets both the cursor and the
scroll offset to 0. -/
theorem selector_filter_and_reset (cfg : SelCfg) (mv : Nat) (st : SelState) (c : Char)
    (hs : cfg.searchEnabled = true) (hc1 : 32 ≤ c.toNat) (hc2 : c.toNat ≤ 126) :
    (∃ st', selStep cfg mv st (.printable c) = .cont st' ∧
      st'.query = st.query ++ [c] ∧
      List.Sublist st'.filtered st.original ∧
      (∀ x, x ∈ st'.filtered ↔
        x ∈ st.original ∧ containsCI (cfg.getLabel x) (st.query ++ [c]) = true) ∧
      st'.currentRow = 0 ∧ st'.scrollPos = 0) ∧
    (∃ st', selStep cfg mv st .backspace = .cont st' ∧
      st'.query = st.query.dropLast ∧
      List.Sublist st'.filtered st.original ∧
      (∀ x, x ∈ st'.filtered ↔
        x ∈ st.original ∧ containsCI (cfg.getLabel x) st.query.dropLast = true) ∧
      st'.currentRow = 0 ∧ st'.scrollPos = 0) ∧
    (∀ options, (initSel cfg options).original =
      mkOriginal cfg.includeBack cfg.includeExit options) := by
  refine ⟨⟨⟨st.original, applyFilter cfg st.original (st.query ++ [c]),
            st.query ++ [c], 0, 0⟩, ?_, rfl, List.filter_sublist _, ?_, rfl, rfl⟩,
          ⟨⟨st.original, applyFilter cfg st.original st.query.dropLast,
            st.query.dropLast, 0, 0⟩, ?_, rfl, List.filter_sublist _, ?_, rfl, rfl⟩,
          fun _ => rfl⟩
  · show selKey cfg (preRender mv st) (.printable c) = _
    rw [selKey]
    rw [if_pos ⟨hs, hc1, hc2⟩]
    rfl
  · intro x
    simp [applyFilter, List.mem_filter]
  · show selKey cfg (preRender mv st) .backspace = _
    rw [selKey]
    rw [if_pos hs]
    rfl
  · intro x
    simp [applyFilter, List.mem_filter]

/-- Witness for C1: typing `a` into the search-enabled selector over
`["alpha", "beta", "gamma"]`. -/
theorem selector_filter_and_reset_witness :
    ∃ st', selStep cfgA 6 (initSel cfgA optsABG) (.printable 'a') = .cont st' ∧
      st'.query = (initSel cfgA optsABG).query ++ ['a'] ∧
      List.Sublist st'.filtered (initSel cfgA optsABG).original ∧
      (∀ x, x ∈ st'.filtered ↔
        x ∈ (initSel cfgA optsABG).original ∧
          containsCI (cfgA.getLabel x) ((initSel cfgA optsABG).query ++ ['a']) = true) ∧
      st'.currentRow = 0 ∧ st'.scrollPos = 0 :=
  (selector_filter_and_reset cfgA 6 (initSel cfgA optsABG) 'a' rfl
    (by decide) (by decide)).1

/-- Claim C2 is contradicted by the code: in the search-enabled selector
over `["alpha"]`, typing `z` empties the filtered list (the list body
renders zero rows, and Up/Down are inert), but pressing Enter evaluates
`filtered_options[0]` on the empty list and raises an `IndexError`
(`crash`) instead of being inert. -/
theorem selector_empty_filter_enter_crashes :
    selStep cfgA 6 (initSel cfgA [strL "alpha"]) (.printable 'z') = .cont stEmptyA ∧
    stEmptyA.filtered = [] ∧
    ((stEmptyA.filtered.drop stEmptyA.scrollPos).take 6).length = 0 ∧
    selKey cfgA stEmptyA .up = .cont stEmptyA ∧
    selKey cfgA stEmptyA .down = .cont stEmptyA ∧
    selKey cfgA stEmptyA .enter = .crash := by decide

/-- Claim C3 (amended): confirming Enter on a skip item is a no-op (the
state continues unchanged), and an Up or Down step never leaves the cursor
on a skip item when a selectable item exists in the direction of movement;
the initialization clause of the claim is false — `current_row` starts at 0
unconditionally (see the counterexample). -/
theorem selector_skip_items_amended (cfg : SelCfg) (st : SelState) (v : Str) :
    (st.filtered[st.currentRow]? = some v → v ∈ cfg.skipItems →
      selKey cfg st .enter = .cont st) ∧
    (0 < st.currentRow → st.currentRow - 1 < st.filtered.length →
      (∃ j l, j ≤ st.currentRow - 1 ∧ st.filtered[j]? = some l ∧ l ∉ cfg.skipItems) →
      ∃ r l', selKey cfg st .up = .cont { st with currentRow := r } ∧
        r ≤ st.currentRow - 1 ∧ st.filtered[r]? = some l' ∧ l' ∉ cfg.skipItems) ∧
    (st.currentRow + 1 < st.filtered.length →
      (∃ j l, st.currentRow + 1 ≤ j ∧ st.filtered[j]? = some l ∧ l ∉ cfg.skipItems) →
      ∃ r l', selKey cfg st .down = .cont { st with currentRow := r } ∧
        st.currentRow + 1 ≤ r ∧ st.filtered[r]? = some l' ∧ l' ∉ cfg.skipItems) := by
  refine ⟨?_, ?_, ?_⟩
  · intro hget hskip
    rw [selKey, hget]
    simp only []
    rw [if_pos hskip]
  · intro hpos hlen hex
    obtain ⟨r, l', heq, hle, hg, hns⟩ :=
      skipDecLoop_spec st.filtered cfg.skipItems (st.currentRow - 1) hlen hex
    refine ⟨r, l', ?_, hle, hg, hns⟩
    rw [selKey]
    rw [if_pos hpos, heq]
  · intro hlen hex
    obtain ⟨r, l', heq, hle, hg, hns⟩ :=
      skipIncLoop_spec st.filtered cfg.skipItems (st.currentRow + 1) hex
    refine ⟨r, l', ?_, hle, hg, hns⟩
    rw [selKey]
    rw [if_pos hlen, heq]

/-- Witness for C3's amended claim: in `["---", "x", "y"]` with `"---"` a
skip item, pressing Up with the cursor on row 2 lands on a selectable row
at or below row 1. -/
theorem selector_skip_items_amended_witness :
    ∃ r l', selKey cfgSkip st3 .up = .cont { st3 with currentRow := r } ∧
      r ≤ st3.currentRow - 1 ∧ st3.filtered[r]? = some l' ∧
      l' ∉ cfgSkip.skipItems :=
  (selector_skip_items_amended cfgSkip st3 (strL "x")).2.1 (by decide) (by decide)
    ⟨1, strL "x", by decide, by decide, by decide⟩

/-- Counterexample to C3 as stated: at initialization over
`["---", "x", "y"]` with `"---"` a skip item, the cursor starts at row 0,
which holds the skip item, although the selectable item `"x"` sits right
below it. -/
theorem selector_cursor_starts_on_skip_item :
    (initSel cfgSkip opts3).currentRow = 0 ∧
    (initSel cfgSkip opts3).filtered[0]? = some (strL "---") ∧
    strL "---" ∈ cfgSkip.skipItems ∧
    (initSel cfgSkip opts3).filtered[1]? = some (strL "x") ∧
    strL "x" ∉ cfgSkip.skipItems := by decide

/-- Claim C7 (amended): invoked with zero items and no sentinels, the
selector neither reports a condition nor returns: the filtered list is
empty, Up/Down and unrecognised keys leave the state unchanged (the loop
spins), query edits keep the filtered list empty, and Enter raises an
uncaught `IndexError`. -/
theorem selector_empty_no_sentinels_amended (cfg : SelCfg)
    (hb : cfg.includeBack = false) (he : cfg.includeExit = false) :
    (initSel cfg []).filtered = [] ∧
    selKey cfg (initSel cfg []) .enter = .crash ∧
    selKey cfg (initSel cfg []) .up = .cont (initSel cfg []) ∧
    selKey cfg (initSel cfg []) .down = .cont (initSel cfg []) ∧
    selKey cfg (initSel cfg []) .other = .cont (initSel cfg []) ∧
    ∀ c : Char, ∃ st', selKey cfg (initSel cfg []) (.printable c) = .cont st' ∧
      st'.filtered = [] := by
  have horig : mkOriginal cfg.includeBack cfg.includeExit [] = [] := by
    rw [mkOriginal]
    simp [hb, he]
  have hinit : initSel cfg [] = ⟨[], [], [], 0, 0⟩ := by
    rw [initSel]
    simp [horig]
  rw [hinit]
  refine ⟨rfl, ?_, ?_, ?_, rfl, ?_⟩
  · rw [selKey]
    rfl
  · rw [selKey, if_neg (by decide)]
  · rw [selKey, if_neg (by decide)]
  · intro c
    rw [selKey]
    split
    · exact ⟨_, rfl, rfl⟩
    · exact ⟨_, rfl, rfl⟩

/-- Witness for C7's amended claim, at the bare configuration `cfgB`. -/
theorem selector_empty_no_sentinels_amended_witness :
    (initSel cfgB []).filtered = [] ∧
    selKey cfgB (initSel cfgB []) .enter = .crash ∧
    selKey cfgB (initSel cfgB []) .up = .cont (initSel cfgB []) ∧
    selKey cfgB (initSel cfgB []) .down = .cont (initSel cfgB []) ∧
    selKey cfgB (initSel cfgB []) .other = .cont (initSel cfgB []) :=
  have h := selector_empty_no_sentinels_amended cfgB rfl rfl
  ⟨h.1, h.2.1, h.2.2.1, h.2.2.2.1, h.2.2.2.2.1⟩

/-- Counterexample to C7 as stated: with zero items and no sentinels the
selector does not "return immediately with no selection" — navigation keys
just loop, and Enter raises. -/
theorem selector_empty_no_sentinels_loops_or_crashes :
    selKey cfgB (initSel cfgB []) .enter = .crash ∧
    selKey cfgB (initSel cfgB []) .down = .cont (initSel cfgB []) ∧
    selKey cfgB (initSel cfgB []) .backspace = .cont (initSel cfgB []) := by decide

/-- Claim C9 (amended): the selector's window height is computed once, at
entry, as `terminal rows at entry − 4`; the per-frame rendered row counts
depend on the terminal-size function only through its value at frame 0, so
a mid-loop resize never changes the rendered window, and the first frame
draws `min (rows 0 − 4) (length of the sentinel-extended list)` rows. -/
theorem selector_visible_rows_fixed_at_entry (cfg : SelCfg) (rows rows' : Nat → Nat)
    (options : List Str) (keys : List SKey) (hsame : rows 0 = rows' 0) :
    selFrames cfg rows options keys = selFrames cfg rows' options keys ∧
    ∀ k ks, 4 < rows 0 →
      (selFrames cfg rows options (k :: ks)).head? =
        some (min (rows 0 - 4)
          (mkOriginal cfg.includeBack cfg.includeExit options).length) := by
  constructor
  · rw [selFrames, selFrames, hsame]
  · intro k ks h4
    have hadj : adjustScroll (rows 0 - 4) 0 0 = 0 := by
      rw [adjustScroll, if_neg (by omega), if_neg (by omega)]
    rw [selFrames, selFramesGo]
    simp [preRender, initSel, hadj, List.length_take]

/-- Witness for C9's amended claim: two terminals agreeing at frame 0 but
resized differently afterwards render identical frames; the head formula
holds at the 10-row terminal. -/
theorem selector_visible_rows_fixed_at_entry_witness :
    selFrames cfgA rowsEx opts50 [SKey.other] =
      selFrames cfgA rowsEx2 opts50 [SKey.other] ∧
    (selFrames cfgA rowsEx opts50 (SKey.other :: [])).head? =
      some (min (rowsEx 0 - 4)
        (mkOriginal cfgA.includeBack cfgA.includeExit opts50).length) := by
  have h := selector_visible_rows_fixed_at_entry cfgA rowsEx rowsEx2 opts50
    [SKey.other] rfl
  exact ⟨h.1, h.2 SKey.other [] (by decide)⟩

/-- Counterexample to C9 as stated: 50 items on a terminal with 10 rows at
entry, resized to 44 rows before the second frame — the second frame still
draws 6 rows, not `44 − 4 = 40` (nor `44` minus the spec's 1-2 reserved
rows). -/
theorem selector_resize_mid_loop_ignored :
    selFrames cfgA rowsEx opts50 [.other, .other] = [6, 6] ∧
    rowsEx 1 = 44 ∧ ¬(44 - 4 = 6) := by decide

/-- The "Go Back" sentinel is a member of the sentinel-extended option list
whenever `include_back` is set and no caller item equals it. -/
theorem goBack_mem_mkOriginal (ie : Bool) (opts : List Str) (hnb : goBackS ∉ opts) :
    goBackS ∈ mkOriginal true ie opts := by
  rw [mkOriginal]
  simp only [hnb]
  simp only [true_and, not_false_eq_true, if_true]
  split <;> simp

/-- The "Exit" sentinel is a member of the sentinel-extended option list
whenever `include_exit` is set: line 123 appends it when absent, and when
it is already present nothing need be appended. -/
theorem exit_mem_mkOriginal (ib : Bool) (opts : List Str) :
    exitS ∈ mkOriginal ib true opts := by
  rw [mkOriginal]
  split_ifs <;> (first | (simp_all; done) | (simp_all; tauto))

/-- Claim C10: the incremental filter (line 165) applies the caller's label
function to every entry of `original_options`, the sentinel strings
included — while rendering (line 143) displays sentinels literally,
bypassing the label function — so after a query edit each enabled sentinel,
"Go Back" as well as "Exit", survives in the filtered list exactly when the
query is contained case-insensitively in the label function's value on that
sentinel string; in particular a query not contained in a sentinel's label
removes that sentinel. -/
theorem sentinel_filter_uses_label_fn (cfg : SelCfg) (st : SelState) (c : Char)
    (opts : List Str) (hs : cfg.searchEnabled = true)
    (hc1 : 32 ≤ c.toNat) (hc2 : c.toNat ≤ 126)
    (ho : st.original = mkOriginal cfg.includeBack cfg.includeExit opts) :
    (∀ g : Str → Str, renderLabel g goBackS = goBackS ∧ renderLabel g exitS = exitS) ∧
    ∃ st', selKey cfg st (.printable c) = .cont st' ∧
      (cfg.includeBack = true → goBackS ∉ opts →
        (goBackS ∈ st'.filtered ↔
          containsCI (cfg.getLabel goBackS) (st.query ++ [c]) = true)) ∧
      (cfg.includeExit = true →
        (exitS ∈ st'.filtered ↔
          containsCI (cfg.getLabel exitS) (st.query ++ [c]) = true)) := by
  constructor
  · intro g
    refine ⟨?_, ?_⟩
    · rw [renderLabel, if_pos (Or.inl rfl)]
    · rw [renderLabel, if_pos (Or.inr rfl)]
  · refine ⟨⟨st.original, applyFilter cfg st.original (st.query ++ [c]),
      st.query ++ [c], 0, 0⟩, ?_, ?_, ?_⟩
    · rw [selKey, if_pos ⟨hs, hc1, hc2⟩]
    · intro hb hnb
      have hmem : goBackS ∈ st.original := by
        rw [ho, hb]
        exact goBack_mem_mkOriginal cfg.includeExit opts hnb
      simp [applyFilter, List.mem_filter, hmem]
    · intro he
      have hmem : exitS ∈ st.original := by
        rw [ho, he]
        exact exit_mem_mkOriginal cfg.includeBack opts
      simp [applyFilter, List.mem_filter, hmem]

/-- Witness for C10: with identity labels and both sentinels enabled over
`["alpha"]`, typing `z` keeps each sentinel exactly when `z` occurs in that
sentinel's label-function value. -/
theorem sentinel_filter_uses_label_fn_witness :
    ∃ st', selKey cfgD (initSel cfgD [strL "alpha"]) (.printable 'z') = .cont st' ∧
      (goBackS ∈ st'.filtered ↔
        containsCI (cfgD.getLabel goBackS)
          ((initSel cfgD [strL "alpha"]).query ++ ['z']) = true) ∧
      (exitS ∈ st'.filtered ↔
        containsCI (cfgD.getLabel exitS)
          ((initSel cfgD [strL "alpha"]).query ++ ['z']) = true) := by
  obtain ⟨st', hstep, hgb, hex⟩ :=
    (sentinel_filter_uses_label_fn cfgD (initSel cfgD [strL "alpha"]) 'z'
      [strL "alpha"] rfl (by decide) (by decide) rfl).2
  exact ⟨st', hstep, hgb rfl (by decide), hex rfl⟩

/-! ### Navigation theorems -/

/-- Claim C8 (amended): "Go Back" at the environment-type prompt returns to
the main menu and at the namespace prompt returns to the environment-type
prompt (one level up), and every selector invocation starts from a fresh
state (empty query, cursor and scroll at 0); but "Go Back" at the option
prompt also returns to the environment-type prompt (skipping the namespace
level), and "Go Back" at the kubernetes action prompt terminates the whole
session. -/
theorem nav_go_back_unwinding (nsOf : Str → Str → List Str) (env ty ns : Str)
    (cfg : SelCfg) (options : List Str) :
    navStep nsOf (.envTypeLoop env) goBackS = .mainMenu ∧
    navStep nsOf (.nsLoop env ty) goBackS = .envTypeLoop env ∧
    navStep nsOf (.optPrompt env ty ns) goBackS = .envTypeLoop env ∧
    navStep nsOf (.actionLoop env ty ns) goBackS = .done ∧
    (initSel cfg options).query = [] ∧ (initSel cfg options).currentRow = 0 ∧
    (initSel cfg options).scrollPos = 0 := by
  refine ⟨?_, ?_, ?_, ?_, rfl, rfl, rfl⟩ <;> rw [navStep, if_pos rfl]

/-- Counterexample to C8 as stated: "Go Back" at the option prompt lands at
the environment-type prompt, not one level up at the namespace prompt, and
"Go Back" at the action prompt terminates the session. -/
theorem nav_go_back_skips_level_and_terminates :
    navStep nsOfEx (.optPrompt (strL "e") (strL "t") (strL "n")) goBackS =
      .envTypeLoop (strL "e") ∧
    navStep nsOfEx (.optPrompt (strL "e") (strL "t") (strL "n")) goBackS ≠
      .nsLoop (strL "e") (strL "t") ∧
    navStep nsOfEx (.actionLoop (strL "e") (strL "t") (strL "n")) goBackS =
      .done := by decide
